import Mathlib

/-!
Shallow embedding of the stalker-trace script (src/stalk_trace.js): a
Frida instruction-level tracer.  JavaScript values that the script can
hold in a register-lookup result (NativePointer, undefined, string) are
modelled by the inductive `JsVal`; machine memory is an oracle from
addresses to optional bytes; NativePointer arithmetic is modulo 2^64.
-/

namespace StalkTrace

/-- Peek length for string inspection (CONFIG.STR_PEEK_LEN). -/
def STR_PEEK_LEN : Nat := 32

/-- Loop suppression threshold (CONFIG.LOOP_THRESHOLD). -/
def LOOP_THRESHOLD : Nat := 10

/-- ANSI reset code (C.RESET, ENABLE_COLOR = true). -/
def cRESET : String := "\x1b[0m"

/-- ANSI red (C.RED). -/
def cRED : String := "\x1b[31m"

/-- ANSI green (C.GREEN). -/
def cGREEN : String := "\x1b[32m"

/-- ANSI yellow (C.YELLOW). -/
def cYELLOW : String := "\x1b[33m"

/-- ANSI blue (C.BLUE). -/
def cBLUE : String := "\x1b[34m"

/-- ANSI magenta (C.MAGENTA). -/
def cMAGENTA : String := "\x1b[35m"

/-- ANSI cyan (C.CYAN). -/
def cCYAN : String := "\x1b[36m"

/-- ANSI gray (C.GRAY). -/
def cGRAY : String := "\x1b[90m"

/-- A JavaScript value as it can appear in the script's register-lookup
results: a NativePointer (64-bit machine word), `undefined`, or a string
(the marker strings and the vector hex literals). -/
inductive JsVal where
  | ptrV (v : Nat)
  | undefV
  | strV (s : String)
deriving DecidableEq

/-- Rendering of a `JsVal` by JavaScript template-string interpolation:
NativePointers print as hex literals, strings as themselves. -/
def JsVal.display : JsVal → String
  | .ptrV v => "0x" ++ String.mk (Nat.toDigits 16 v)
  | .undefV => "undefined"
  | .strV s => s

/-- `NativePointer.toString()`: hex rendering with `0x` prefix. -/
def ptrStr (n : Nat) : String := "0x" ++ String.mk (Nat.toDigits 16 n)

/-- JavaScript `String.prototype.startsWith` (on ASCII data). -/
def jsStartsWith (s pre : String) : Bool := pre.data.isPrefixOf s.data

/-- JavaScript `String.prototype.padStart(n, c)`. -/
def padStart (s : String) (n : Nat) (c : Char) : String :=
  String.mk (List.replicate (n - s.length) c) ++ s

/-- JavaScript `String.prototype.padEnd(n)` (space fill). -/
def padEnd (s : String) (n : Nat) : String :=
  s ++ String.mk (List.replicate (n - s.length) ' ')

/-- `parseInt` applied to a run of decimal digit characters. -/
def parseDigits (l : List Char) : Nat :=
  l.foldl (fun a c => a * 10 + (c.toNat - 48)) 0

/-- The first maximal run of decimal digits in a string — the result of
the JavaScript regular-expression match `/\d+/` (`match[0]`). -/
def firstDigitRun (s : String) : Option (List Char) :=
  match s.data.dropWhile (fun c => !c.isDigit) with
  | [] => none
  | c :: cs => some ((c :: cs).takeWhile Char.isDigit)

/-- Frida Arm64 register context as the script uses it: 29 general
registers x0–x28 plus fp, lr, sp, pc (the data model of section 3). -/
structure RegContext where
  x : Fin 29 → Nat
  fp : Nat
  lr : Nat
  sp : Nat
  pc : Nat

/-- Canonical parse of a general-register property name: `"x" ++ i`
with `i` the canonical decimal rendering (JavaScript object keys are
exact strings, so "x05" is not a key). -/
def parseXIndex (name : String) : Option Nat :=
  match name.data with
  | 'x' :: rest =>
    if rest ≠ [] ∧ rest.all Char.isDigit then
      if Nat.repr (parseDigits rest) = String.mk rest then some (parseDigits rest) else none
    else none
  | _ => none

/-- JavaScript property lookup `context[name]` on the register context:
returns the field for x0–x28, fp, lr, sp, pc and `none` (undefined) for
any other key. -/
def ctxField (c : RegContext) (name : String) : Option Nat :=
  if name = "fp" then some c.fp
  else if name = "lr" then some c.lr
  else if name = "sp" then some c.sp
  else if name = "pc" then some c.pc
  else
    match parseXIndex name with
    | some i => if h : i < 29 then some (c.x ⟨i, h⟩) else none
    | none => none

/-- The 256-byte vector shadow buffer filled by the CModule callout:
16 registers of 16 bytes each.  `none` at the use sites models a failed
CModule compilation (`simdBuffer === null`). -/
abbrev SimdBuf := Fin 16 → Fin 16 → Fin 256

/-- Raw process memory: an oracle giving the byte at an address, or
`none` where a read would fault. -/
abbrev Mem := Nat → Option (Fin 256)

/-- `readByteArray(a, len)`: all `len` bytes starting at `a`, failing
(`none`) when any byte in the range is unreadable. -/
def readBytesN (mem : Mem) (a : Nat) (len : Nat) : Option (List (Fin 256)) :=
  (List.range len).mapM (fun i => mem (a + i))

/-- `readPointer(a)`: one 64-bit little-endian machine word. -/
def readWord (mem : Mem) (a : Nat) : Option Nat :=
  (readBytesN mem a 8).map (fun bs => bs.foldr (fun b acc => (b : Nat) + 256 * acc) 0)

/-- NativePointer `add` with a (possibly negative) displacement: 64-bit
wrapping pointer arithmetic. -/
def addDisp (bv : Nat) (disp : Int) : Nat :=
  (((bv : Int) + disp) % (2 ^ 64 : Int)).toNat

/-- NativePointer `sub`: 64-bit wrapping subtraction. -/
def sub64 (a b : Nat) : Nat := (a + (2 ^ 64 - b % 2 ^ 64)) % 2 ^ 64

/-- `isSafePointer(ptrVal)`: the pointer-safety heuristic.  The input is
`none` for a JavaScript null/undefined argument, `some v` for a
NativePointer of value `v` (`isNull()` is `v = 0`). -/
def isSafePointer : Option Nat → Bool
  | none => false
  | some v =>
    if v = 0 then false
    else if v < 0x10000 then false
    else if Nat.land v 7 ≠ 0 then false
    else true

/-- One byte rendered as two hex characters:
`u8[i].toString(16).padStart(2, '0')`. -/
def byteToHex2 (b : Nat) : String :=
  padStart (String.mk (Nat.toDigits 16 b)) 2 '0'

/-- `toHex128(p)`: the 16 bytes at `p` rendered most-significant-byte
first (loop from index 15 down to 0), `0x`-prefixed. -/
def toHex128 (bytes : Fin 16 → Fin 256) : String :=
  "0x" ++ (List.finRange 16).reverse.foldl (fun acc i => acc ++ byteToHex2 (bytes i)) ""

/-- `getRegisterValue(context, regName)`.  `simd` is the vector shadow
buffer, `none` when the CModule bridge failed to initialize. -/
def getRegisterValue (simd : Option SimdBuf) (context : RegContext) (regName : String) : JsVal :=
  if regName = "sp" then .ptrV context.sp
  else if regName = "wzr" ∨ regName = "xzr" then .ptrV 0
  else if jsStartsWith regName "w" then
    match ctxField context ("x" ++ (regName.drop 1)) with
    | some v => .ptrV (Nat.land v 0xFFFFFFFF)
    | none => .undefV
  else if ["q", "d", "s", "h", "b"].any (fun p => jsStartsWith regName p) then
    match simd with
    | none => .strV "(No-CModule)"
    | some buf =>
      match firstDigitRun regName with
      | none => .strV "?"
      | some run =>
        let regIndex := parseDigits run
        if h : regIndex < 16 then .strV (toHex128 (buf ⟨regIndex, h⟩))
        else .strV "(SIMD-OOB)"
  else
    match ctxField context regName with
    | some v => .ptrV v
    | none => .undefV

/-- The byte scan of `inspectMemory`: walk the peeked bytes, stopping at
a zero terminator (string stays plausible) or at a non-printable byte
(string implausible); returns (isString, len). -/
def scanPrintable : List (Fin 256) → Bool × Nat
  | [] => (true, 0)
  | b :: rest =>
    if (b : Nat) = 0 then (true, 0)
    else if (b : Nat) < 32 ∨ (b : Nat) > 126 then (false, 0)
    else
      let r := scanPrintable rest
      (r.1, r.2 + 1)

/-- `readUtf8String(len)` on bytes already known to be printable ASCII:
the first `len` bytes decoded as characters. -/
def readAsciiString (u8 : List (Fin 256)) (len : Nat) : String :=
  String.mk ((u8.take len).map (fun b => Char.ofNat (b : Nat)))

/-- The quoted-string annotation of `inspectMemory`. -/
def quoteAnn (s : String) : String :=
  cGREEN ++ " => \"" ++ s ++ "\"" ++ cRESET

/-- The one-level points-to annotation of `inspectMemory`. -/
def pointsToAnn (p : Nat) : String :=
  cBLUE ++ " => *(" ++ ptrStr p ++ ")" ++ cRESET

/-- `inspectMemory(ptrVal)`: empty annotation for unsafe pointers; a
quoted string when the 32-byte peek succeeds and the printable run
exceeds 2 bytes; otherwise a points-to annotation when a word read
succeeds and the word passes the safety check; otherwise empty.  Read
faults are `none` results of the memory oracle and are swallowed. -/
def inspectMemory (mem : Mem) (ptrVal : Nat) : String :=
  if !isSafePointer (some ptrVal) then ""
  else
    let strAnn : Option String :=
      match readBytesN mem ptrVal STR_PEEK_LEN with
      | some u8 =>
        let sc := scanPrintable u8
        if sc.1 ∧ sc.2 > 2 then some (quoteAnn (readAsciiString u8 sc.2)) else none
      | none => none
    match strAnn with
    | some s => s
    | none =>
      match readWord mem ptrVal with
      | some pointed => if isSafePointer (some pointed) then pointsToAnn pointed else ""
      | none => ""

/-- A decoded operand of one instruction (`op.type` is `reg`, `mem` or
`imm`; a `mem` operand carries an optional base register name and a
displacement). -/
inductive Operand where
  | reg (value : String)
  | mem (base : Option String) (disp : Int)
  | imm (value : Int)
deriving DecidableEq

/-- A decoded instruction as `Instruction.parse` yields it. -/
structure Instr where
  address : Nat
  mnemonic : String
  opStr : String
  operands : List Operand

/-- One operand's annotated fragment inside `formatOperandDetails`. -/
def formatOperand (simd : Option SimdBuf) (mem : Mem) (context : RegContext) :
    Operand → String
  | .reg name =>
    let v0 := getRegisterValue simd context name
    let val := if v0 = .undefV then JsVal.strV "?" else v0
    let extra :=
      match val with
      | .ptrV n =>
        if jsStartsWith name "x" ∨ name = "sp" then inspectMemory mem n else ""
      | _ => ""
    cMAGENTA ++ name ++ cRESET ++ "=" ++ val.display ++ extra
  | .mem base disp =>
    let baseDisplay := match base with | some b => b | none => "undefined"
    let res : String × String :=
      match base with
      | some b =>
        if b = "" then ("N/A", "")
        else
          match getRegisterValue simd context b with
          | .ptrV bv =>
            let calculatedAddr := addDisp bv disp
            let memContent :=
              match readWord mem calculatedAddr with
              | some loadedVal =>
                " " ++ cBLUE ++ "[val=" ++ ptrStr loadedVal ++ "]" ++ cRESET ++
                  inspectMemory mem loadedVal
              | none => ""
            (ptrStr calculatedAddr, memContent)
          | _ => ("N/A", "")
      | none => ("N/A", "")
    "[" ++ baseDisplay ++ "+" ++ toString disp ++ "]=" ++ res.1 ++ res.2
  | .imm v => cGREEN ++ "#" ++ toString v ++ cRESET

/-- `formatOperandDetails(instruction, context)`: the comma-joined,
parenthesized operand annotations, empty for no operands. -/
def formatOperandDetails (simd : Option SimdBuf) (mem : Mem) (instruction : Instr)
    (context : RegContext) : String :=
  let details := instruction.operands.map (formatOperand simd mem context)
  if details.length > 0 then "(" ++ String.intercalate ", " details ++ ")" else ""

/-- The fixed watch list of `getDiffRegisters`. -/
def GENERAL_REGS : List String := ["x0", "x1", "x2", "x3", "x8", "fp", "lr", "sp"]

/-- One iteration of the `getDiffRegisters` loop: compare the current
rendering of one register to the stored one, collect it when changed,
and store the new rendering unconditionally. -/
def diffStep (context : RegContext) (acc : List String × (String → Option String))
    (regName : String) : List String × (String → Option String) :=
  let newValue := ptrStr ((ctxField context regName).getD 0)
  let changed :=
    if acc.2 regName = some newValue then acc.1 else acc.1 ++ [regName ++ "=" ++ newValue]
  (changed, fun k => if k = regName then some newValue else acc.2 k)

/-- `getDiffRegisters(context, lastRegs)`: the diff fragment (empty when
nothing changed) paired with the updated last-rendered map.  All
watch-list names are context fields, so the stored rendering is the
field's hex string. -/
def getDiffRegisters (context : RegContext) (lastRegs : String → Option String) :
    String × (String → Option String) :=
  let r := GENERAL_REGS.foldl (diffStep context) ([], lastRegs)
  (if r.1 ≠ [] then
      " | \x7b " ++ cRED ++ String.intercalate ", " r.1 ++ cRESET ++ " \x7d"
    else "", r.2)

/-- The Per-Call Trace State held on the interceptor's `this`:
thread id, per-pc hit counters (default 0), the last-rendered register
map and the pending (not yet printed) line.  The hit-counter map is
keyed by the pc's rendered string in the source; the rendering is
injective, so the key is modelled by the pc value itself. -/
structure TraceState where
  tid : Nat
  loopCounter : Nat → Nat
  lastRegs : String → Option String
  lastInstructionLog : Option String

/-- The line rendered for the instruction at `context.pc`: offset in
the module, address, colored mnemonic, operand string and operand
details (`disasm` is the external `Instruction.parse`). -/
def renderLine (simd : Option SimdBuf) (disasm : Nat → Instr) (mem : Mem)
    (moduleBase : Nat) (context : RegContext) : String :=
  let currentInstr := disasm context.pc
  let offset := sub64 context.pc moduleBase
  let operandDetails := formatOperandDetails simd mem currentInstr context
  let color :=
    if jsStartsWith currentInstr.mnemonic "ret" then cRED
    else if jsStartsWith currentInstr.mnemonic "bl" then cYELLOW
    else cCYAN
  cGRAY ++ "[" ++ ptrStr offset ++ "]" ++ cRESET ++ " " ++
    ptrStr currentInstr.address ++ " " ++
    color ++ padEnd currentInstr.mnemonic 8 ++ cRESET ++ " " ++
    padEnd currentInstr.opStr 30 ++ " " ++
    padEnd operandDetails 40

/-- The JS callout inserted per instrumented instruction (the pipeline
of section 4.5): bump the pc's hit counter; when the counter exceeds
the threshold and is not a multiple of 100, return having changed
nothing else; otherwise compute the register diff, flush the pending
line with that diff appended, and make the current instruction's
rendering the new pending line.  Returns the new state and the lines
printed by this hit. -/
def calloutStep (simd : Option SimdBuf) (disasm : Nat → Instr) (mem : Mem)
    (moduleBase : Nat) (context : RegContext) (st : TraceState) :
    TraceState × List String :=
  let pcKey := context.pc
  let cnt := st.loopCounter pcKey + 1
  let counter2 : Nat → Nat := fun k => if k = pcKey then cnt else st.loopCounter k
  if cnt > LOOP_THRESHOLD ∧ cnt % 100 ≠ 0 then
    ({ st with loopCounter := counter2 }, [])
  else
    let gd := getDiffRegisters context st.lastRegs
    let out :=
      match st.lastInstructionLog with
      | some l => [l ++ gd.1]
      | none => []
    ({ tid := st.tid, loopCounter := counter2, lastRegs := gd.2,
       lastInstructionLog := some (renderLine simd disasm mem moduleBase context) }, out)

/-- The exit banner printed by `onLeave`. -/
def exitBanner (retval : String) : String :=
  cYELLOW ++ "\n<<<<< 结束 (Ret=" ++ retval ++ ") <<<<<" ++ cRESET ++ "\n"

/-- The lines `onLeave` prints after flushing and unfollowing: the
pending line, if any, exactly as stored (no diff), then the banner. -/
def onLeaveLines (st : TraceState) (retval : String) : List String :=
  (match st.lastInstructionLog with
   | some l => [l]
   | none => []) ++ [exitBanner retval]

/-- Module information from `Process.getModuleByAddress`. -/
structure ModuleInfo where
  name : String
  base : Nat
deriving DecidableEq

/-- What the transform does at one instruction, as an observable event
stream: callouts inserted (capture first, then pipeline) and the
unconditional `iterator.keep()`. -/
inductive StalkAction where
  | captureCallout (addr : Nat)
  | pipelineCallout (addr : Nat)
  | keep (addr : Nat)
deriving DecidableEq

/-- One iteration of the transform's do-while body for the instruction
at `addr`: if `getModuleByAddressSafe` yields the target module, insert
the CModule capture callout (only when the CModule compiled, `cmOk`)
and then the JS pipeline callout; always keep the instruction. -/
def transformInstr (cmOk : Bool) (targetModuleName : String)
    (moduleOf : Nat → Option ModuleInfo) (addr : Nat) : List StalkAction :=
  (match moduleOf addr with
   | some m =>
     if m.name = targetModuleName then
       (if cmOk then [StalkAction.captureCallout addr] else []) ++
         [StalkAction.pipelineCallout addr]
     else []
   | none => []) ++ [StalkAction.keep addr]

/-- The whole transform run over the iterator's instruction sequence. -/
def transform (cmOk : Bool) (targetModuleName : String)
    (moduleOf : Nat → Option ModuleInfo) (instrs : List Nat) : List StalkAction :=
  instrs.flatMap (transformInstr cmOk targetModuleName moduleOf)

/-! ## Decimal rendering: helper facts about `Nat.repr` -/

/-- The decimal digit characters of `n`, most significant first. -/
def natDigits (n : Nat) : List Char :=
  if _h : n < 10 then [Nat.digitChar (n % 10)]
  else natDigits (n / 10) ++ [Nat.digitChar (n % 10)]
decreasing_by exact Nat.div_lt_self (by omega) (by norm_num)

theorem digitChar_isDigit (d : Nat) (h : d < 10) : (Nat.digitChar d).isDigit = true := by
  interval_cases d <;> decide

theorem digitChar_toNat (d : Nat) (h : d < 10) : (Nat.digitChar d).toNat - 48 = d := by
  interval_cases d <;> decide

theorem natDigits_ne_nil (n : Nat) : natDigits n ≠ [] := by
  rw [natDigits]
  split <;> simp

theorem natDigits_digits (n : Nat) : ∀ c ∈ natDigits n, c.isDigit = true := by
  induction n using Nat.strong_induction_on with
  | _ n ih =>
    rw [natDigits]
    split
    · intro c hc
      simp only [List.mem_singleton] at hc
      subst hc
      exact digitChar_isDigit _ (by omega)
    · intro c hc
      rw [List.mem_append] at hc
      rcases hc with hc | hc
      · exact ih (n / 10) (Nat.div_lt_self (by omega) (by norm_num)) c hc
      · simp only [List.mem_singleton] at hc
        subst hc
        exact digitChar_isDigit _ (by omega)

theorem natDigits_lt (n : Nat) (h : n < 10) : natDigits n = [Nat.digitChar (n % 10)] := by
  rw [natDigits]
  exact dif_pos h

theorem natDigits_ge (n : Nat) (h : ¬n < 10) :
    natDigits n = natDigits (n / 10) ++ [Nat.digitChar (n % 10)] := by
  conv_lhs => rw [natDigits]
  exact dif_neg h

theorem toDigitsCore_eq : ∀ (f n : Nat) (ds : List Char), n < f →
    Nat.toDigitsCore 10 f n ds = natDigits n ++ ds := by
  intro f
  induction f with
  | zero => intro n ds h; omega
  | succ f ih =>
    intro n ds h
    show (if n / 10 = 0 then Nat.digitChar (n % 10) :: ds
          else Nat.toDigitsCore 10 f (n / 10) (Nat.digitChar (n % 10) :: ds)) =
        natDigits n ++ ds
    by_cases h10 : n / 10 = 0
    · rw [if_pos h10, natDigits_lt n (by omega)]
      rfl
    · rw [if_neg h10, ih (n / 10) _ (by omega), natDigits_ge n (by omega)]
      simp

theorem repr_data (n : Nat) : (Nat.repr n).data = natDigits n := by
  show (List.asString (Nat.toDigitsCore 10 (n + 1) n [])).data = natDigits n
  rw [toDigitsCore_eq (n + 1) n [] (by omega)]
  simp [List.asString]

theorem parseDigits_natDigits (n : Nat) : parseDigits (natDigits n) = n := by
  induction n using Nat.strong_induction_on with
  | _ n ih =>
    rw [natDigits]
    split
    · unfold parseDigits
      simp only [List.foldl_cons, List.foldl_nil]
      rw [Nat.zero_mul, Nat.zero_add, digitChar_toNat _ (by omega)]
      omega
    · have h1 := ih (n / 10) (Nat.div_lt_self (by omega) (by norm_num))
      unfold parseDigits at h1 ⊢
      rw [List.foldl_append, h1]
      simp only [List.foldl_cons, List.foldl_nil]
      rw [digitChar_toNat _ (by omega)]
      omega

/-! ## String helper facts -/

theorem ne_of_data_head {s t : String} {c d : Char} {ls lt : List Char}
    (hs : s.data = c :: ls) (ht : t.data = d :: lt) (hcd : c ≠ d) : s ≠ t := by
  intro h
  rw [h, ht] at hs
  injection hs with h1 _
  exact hcd h1.symm

theorem takeWhile_all {p : Char → Bool} : ∀ l : List Char, (∀ c ∈ l, p c = true) →
    l.takeWhile p = l := by
  intro l h
  induction l with
  | nil => rfl
  | cons a t ih =>
    rw [List.takeWhile_cons, if_pos (h a (by simp))]
    rw [ih (fun c hc => h c (by simp [hc]))]

theorem q_repr_data (n : Nat) : ("q" ++ Nat.repr n).data = 'q' :: natDigits n := by
  rw [String.data_append, repr_data]
  rfl

theorem firstDigitRun_q (n : Nat) :
    firstDigitRun ("q" ++ Nat.repr n) = some (natDigits n) := by
  unfold firstDigitRun
  rw [q_repr_data]
  rw [List.dropWhile_cons_of_pos (by decide)]
  obtain ⟨c, cs, hcc⟩ : ∃ c cs, natDigits n = c :: cs := by
    cases hd : natDigits n with
    | nil => exact absurd hd (natDigits_ne_nil n)
    | cons c cs => exact ⟨c, cs, rfl⟩
  have hcdig : c.isDigit = true := natDigits_digits n c (by rw [hcc]; simp)
  rw [hcc, List.dropWhile_cons_of_neg (by simp [hcdig])]
  have := takeWhile_all (natDigits n) (natDigits_digits n)
  rw [hcc] at this
  show some (List.takeWhile Char.isDigit (c :: cs)) = some (c :: cs)
  rw [this]

theorem getRegisterValue_q (simd : Option SimdBuf) (ctx : RegContext) (n : Nat) :
    getRegisterValue simd ctx ("q" ++ Nat.repr n) =
      match simd with
      | none => .strV "(No-CModule)"
      | some buf =>
        if h : n < 16 then .strV (toHex128 (buf ⟨n, h⟩)) else .strV "(SIMD-OOB)" := by
  have h1 : ("q" ++ Nat.repr n) ≠ "sp" :=
    ne_of_data_head (q_repr_data n) (rfl : "sp".data = 's' :: ['p']) (by decide)
  have h2 : ("q" ++ Nat.repr n) ≠ "wzr" :=
    ne_of_data_head (q_repr_data n) (rfl : "wzr".data = 'w' :: ['z', 'r']) (by decide)
  have h3 : ("q" ++ Nat.repr n) ≠ "xzr" :=
    ne_of_data_head (q_repr_data n) (rfl : "xzr".data = 'x' :: ['z', 'r']) (by decide)
  have h4 : jsStartsWith ("q" ++ Nat.repr n) "w" = false := by
    unfold jsStartsWith
    rw [q_repr_data]
    rw [show ("w".data : List Char) = ['w'] from rfl, List.isPrefixOf_cons₂]
    rw [show ('w' == 'q') = false from rfl, Bool.false_and]
  have h5 : (["q", "d", "s", "h", "b"].any
      (fun p => jsStartsWith ("q" ++ Nat.repr n) p)) = true := by
    have hq : jsStartsWith ("q" ++ Nat.repr n) "q" = true := by
      unfold jsStartsWith
      rw [q_repr_data]
      rw [show ("q".data : List Char) = ['q'] from rfl, List.isPrefixOf_cons₂]
      simp
    simp [hq]
  unfold getRegisterValue
  rw [if_neg h1, if_neg (by simp [h2, h3]), if_neg (by simp [h4]), if_pos (by simp [h5])]
  cases simd with
  | none => rfl
  | some buf =>
    rw [firstDigitRun_q]
    simp only [parseDigits_natDigits]

/-! ## Hex rendering: a decoder and the round-trip fact -/

/-- Value of one lowercase hex character. -/
def hexCharVal? (c : Char) : Option Nat :=
  if '0' ≤ c ∧ c ≤ '9' then some (c.toNat - 48)
  else if 'a' ≤ c ∧ c ≤ 'f' then some (c.toNat - 87)
  else none

/-- Decode a sequence of two-character hex pairs into byte values. -/
def decodeHexPairs : List Char → Option (List Nat)
  | [] => some []
  | [_] => none
  | c1 :: c2 :: rest =>
    match hexCharVal? c1, hexCharVal? c2, decodeHexPairs rest with
    | some d1, some d2, some ds => some ((d1 * 16 + d2) :: ds)
    | _, _, _ => none

/-- Decode a `0x`-prefixed hex literal into its displayed byte values,
most significant first. -/
def decodeHex128 (s : String) : Option (List Nat) :=
  match s.data with
  | '0' :: 'x' :: rest => decodeHexPairs rest
  | _ => none

set_option maxRecDepth 4000 in
theorem byteToHex2_data : ∀ b : Fin 256,
    (byteToHex2 (b : Nat)).data =
      [Nat.digitChar ((b : Nat) / 16), Nat.digitChar ((b : Nat) % 16)] := by
  decide

theorem hexCharVal_digitChar : ∀ d : Fin 16,
    hexCharVal? (Nat.digitChar (d : Nat)) = some (d : Nat) := by
  decide

theorem decode_pair_prepend (b : Fin 256) (rest : List Char) :
    decodeHexPairs ((byteToHex2 (b : Nat)).data ++ rest) =
      (decodeHexPairs rest).map (fun ds => (b : Nat) :: ds) := by
  rw [byteToHex2_data b]
  have h1 : hexCharVal? (Nat.digitChar ((b : Nat) / 16)) = some ((b : Nat) / 16) := by
    have := hexCharVal_digitChar ⟨(b : Nat) / 16, by omega⟩
    simpa using this
  have h2 : hexCharVal? (Nat.digitChar ((b : Nat) % 16)) = some ((b : Nat) % 16) := by
    have := hexCharVal_digitChar ⟨(b : Nat) % 16, by omega⟩
    simpa using this
  show decodeHexPairs (Nat.digitChar ((b : Nat) / 16) :: Nat.digitChar ((b : Nat) % 16) :: rest) = _
  simp only [decodeHexPairs, h1, h2]
  cases hr : decodeHexPairs rest with
  | none => rfl
  | some ds =>
    show some (((b : Nat) / 16 * 16 + (b : Nat) % 16) :: ds) = some ((b : Nat) :: ds)
    congr 2
    omega

theorem decode_flat (g : Fin 16 → Fin 256) : ∀ l : List (Fin 16),
    decodeHexPairs (l.flatMap (fun i => (byteToHex2 ((g i : Nat))).data)) =
      some (l.map (fun i => ((g i : Nat)))) := by
  intro l
  induction l with
  | nil => rfl
  | cons hd t ih =>
    rw [List.flatMap_cons, decode_pair_prepend (g hd), ih]
    rfl

theorem foldl_append_data (f : Fin 16 → String) : ∀ (l : List (Fin 16)) (a : String),
    (l.foldl (fun acc i => acc ++ f i) a).data =
      a.data ++ l.flatMap (fun i => (f i).data) := by
  intro l
  induction l with
  | nil => intro a; simp
  | cons hd t ih =>
    intro a
    rw [List.foldl_cons, ih, List.flatMap_cons, String.data_append, List.append_assoc]

theorem toHex128_data (bytes : Fin 16 → Fin 256) :
    (toHex128 bytes).data =
      '0' :: 'x' ::
        (List.finRange 16).reverse.flatMap (fun i => (byteToHex2 ((bytes i : Nat))).data) := by
  unfold toHex128
  rw [String.data_append, foldl_append_data (fun i => byteToHex2 ((bytes i : Nat)))]
  rfl

/-- Round trip: decoding the rendered 128-bit hex literal yields the
captured byte sequence reversed. -/
theorem toHex128_decode (bytes : Fin 16 → Fin 256) :
    decodeHex128 (toHex128 bytes) =
      some (((List.finRange 16).map (fun j => ((bytes j : Nat)))).reverse) := by
  unfold decodeHex128
  rw [toHex128_data]
  show decodeHexPairs
      ((List.finRange 16).reverse.flatMap (fun i => (byteToHex2 ((bytes i : Nat))).data)) = _
  rw [decode_flat bytes]
  rw [List.map_reverse]

/-! ## Concrete fixtures used by witnesses and counterexamples -/

/-- A concrete register context. -/
def ctx0 : RegContext :=
  { x := fun _ => 0, fp := 0, lr := 0, sp := 3, pc := 0x1000 }

/-- A concrete register context whose general registers hold 0x10000. -/
def ctxP : RegContext :=
  { x := fun _ => 0x10000, fp := 0, lr := 0, sp := 0, pc := 0x1000 }

/-- A concrete shadow buffer with distinguishable bytes. -/
def buf0 : SimdBuf := fun i j => ⟨((i : Nat) * 16 + (j : Nat)) % 256, Nat.mod_lt _ (by norm_num)⟩

/-- Memory in which every read faults. -/
def memNone : Mem := fun _ => none

/-- A disassembler oracle returning a fixed no-operand instruction. -/
def disasm0 : Nat → Instr :=
  fun a => { address := a, mnemonic := "nop", opStr := "", operands := [] }

/-- A fresh per-call trace state (what `onEnter` allocates). -/
def st0 : TraceState :=
  { tid := 1, loopCounter := fun _ => 0, lastRegs := fun _ => none,
    lastInstructionLog := none }

/-- A trace state with a pending line. -/
def stP : TraceState :=
  { tid := 1, loopCounter := fun _ => 0, lastRegs := fun _ => none,
    lastInstructionLog := some "PENDING" }

/-- A trace state whose counter for `ctx0.pc` is at the threshold, so
the next hit is the first suppressed one. -/
def stHot : TraceState :=
  { tid := 1, loopCounter := fun k => if k = ctx0.pc then 10 else 0,
    lastRegs := fun _ => none, lastInstructionLog := some "HOTPENDING" }

/-! ## Claim theorems -/

/-- C3: for every context snapshot and register-name string the lookup
is total (the embedding never needs an error case) and its result is a
machine-word value, the unavailable marker (undefined), the
bridge-unavailable marker, the unparsable-index marker, the
out-of-range marker, or a vector hex rendering. -/
theorem getRegisterValue_total_defined (simd : Option SimdBuf) (ctx : RegContext)
    (name : String) :
    (∃ v, getRegisterValue simd ctx name = .ptrV v) ∨
    getRegisterValue simd ctx name = .undefV ∨
    getRegisterValue simd ctx name = .strV "(No-CModule)" ∨
    getRegisterValue simd ctx name = .strV "?" ∨
    getRegisterValue simd ctx name = .strV "(SIMD-OOB)" ∨
    (∃ b, getRegisterValue simd ctx name = .strV (toHex128 b)) := by
  unfold getRegisterValue
  split
  · exact Or.inl ⟨_, rfl⟩
  · split
    · exact Or.inl ⟨0, rfl⟩
    · split
      · split
        · exact Or.inl ⟨_, rfl⟩
        · exact Or.inr (Or.inl rfl)
      · split
        · split
          · exact Or.inr (Or.inr (Or.inl rfl))
          · split
            · exact Or.inr (Or.inr (Or.inr (Or.inl rfl)))
            · dsimp only
              split
              · exact Or.inr (Or.inr (Or.inr (Or.inr (Or.inr ⟨_, rfl⟩))))
              · exact Or.inr (Or.inr (Or.inr (Or.inr (Or.inl rfl))))
        · split
          · exact Or.inl ⟨_, rfl⟩
          · exact Or.inr (Or.inl rfl)

/-- C4: looking up the stack-pointer name returns the context's
stack-pointer field directly — for every bridge state, even though the
name satisfies the vector-class prefix test (it starts with `s`), so
the priority of the exact-name rule is what keeps it from the generic
suffix classification. -/
theorem sp_lookup_priority (simd : Option SimdBuf) (ctx : RegContext) :
    getRegisterValue simd ctx "sp" = .ptrV ctx.sp ∧
    (["q", "d", "s", "h", "b"].any (fun p => jsStartsWith "sp" p)) = true :=
  ⟨rfl, by decide⟩

/-- C5: for every vector index below 16 the lookup renders the 16
captured bytes of that register byte-order-reversed (decoding the hex
literal recovers exactly the captured byte list reversed); for an index
of 16 or more it returns the out-of-range marker; with a failed bridge
it returns the distinct bridge-unavailable marker. -/
theorem vector_lookup_spec (ctx : RegContext) (buf : SimdBuf) :
    (∀ i : Fin 16,
        getRegisterValue (some buf) ctx ("q" ++ Nat.repr (i : Nat)) =
          .strV (toHex128 (buf i)) ∧
        decodeHex128 (toHex128 (buf i)) =
          some (((List.finRange 16).map (fun j => ((buf i j : Nat)))).reverse)) ∧
    (∀ n : Nat, 16 ≤ n →
        getRegisterValue (some buf) ctx ("q" ++ Nat.repr n) = .strV "(SIMD-OOB)") ∧
    (∀ n : Nat, getRegisterValue none ctx ("q" ++ Nat.repr n) = .strV "(No-CModule)") ∧
    ("(SIMD-OOB)" : String) ≠ "(No-CModule)" := by
  refine ⟨fun i => ⟨?_, toHex128_decode (buf i)⟩, fun n hn => ?_, fun n => ?_, by decide⟩
  · rw [getRegisterValue_q]
    show (if h : (i : Nat) < 16 then JsVal.strV (toHex128 (buf ⟨(i : Nat), h⟩))
          else .strV "(SIMD-OOB)") = _
    rw [dif_pos i.isLt]
  · rw [getRegisterValue_q]
    show (if h : n < 16 then JsVal.strV (toHex128 (buf ⟨n, h⟩))
          else .strV "(SIMD-OOB)") = _
    rw [dif_neg (by omega)]
  · rw [getRegisterValue_q]

/-- C5 witness: the theorem applied at a concrete buffer, index 16. -/
theorem vector_lookup_spec_witness :
    (16 ≤ 16) ∧
    getRegisterValue (some buf0) ctx0 ("q" ++ Nat.repr 16) = .strV "(SIMD-OOB)" :=
  ⟨by norm_num, (vector_lookup_spec ctx0 buf0).2.1 16 (by norm_num)⟩

/-- C7: the pointer-safety predicate rejects null/zero, rejects values
below the 0x10000 floor, rejects values misaligned with respect to the
8-byte word size, and accepts everything else; it is a total Boolean
function. -/
theorem isSafePointer_spec :
    isSafePointer none = false ∧
    isSafePointer (some 0) = false ∧
    (∀ n : Nat, n < 0x10000 → isSafePointer (some n) = false) ∧
    (∀ n : Nat, n % 8 ≠ 0 → isSafePointer (some n) = false) ∧
    (∀ n : Nat, n ≠ 0 → 0x10000 ≤ n → n % 8 = 0 → isSafePointer (some n) = true) := by
  have hland : ∀ n : Nat, Nat.land n 7 = n % 8 := fun n => by
    have := Nat.and_pow_two_sub_one_eq_mod n 3
    simpa using this
  have hred : ∀ n : Nat, isSafePointer (some n) =
      (if n = 0 then false
       else if n < 0x10000 then false
       else if Nat.land n 7 ≠ 0 then false
       else true) := fun n => rfl
  refine ⟨rfl, rfl, fun n h => ?_, fun n h => ?_, fun n h1 h2 h3 => ?_⟩
  · rw [hred]
    by_cases h0 : n = 0
    · rw [if_pos h0]
    · rw [if_neg h0, if_pos h]
  · rw [hred]
    by_cases h0 : n = 0
    · rw [if_pos h0]
    · rw [if_neg h0]
      by_cases hlt : n < 0x10000
      · rw [if_pos hlt]
      · rw [if_neg hlt, if_pos (by rw [hland]; exact h)]
  · rw [hred]
    rw [if_neg h1, if_neg (by omega), if_neg (by rw [hland]; omega)]

/-- C1: with count the hit counter after incrementing, the diff, flush
and new-pending-line steps run (with exactly this effect on state and
output) when count is at most the threshold or a multiple of 100, and
otherwise the hit only increments that counter and prints nothing. -/
theorem loop_gate_renders_iff (simd : Option SimdBuf) (disasm : Nat → Instr) (mem : Mem)
    (moduleBase : Nat) (context : RegContext) (st : TraceState) :
    (st.loopCounter context.pc + 1 ≤ LOOP_THRESHOLD ∨
        (st.loopCounter context.pc + 1) % 100 = 0 →
      calloutStep simd disasm mem moduleBase context st =
        ({ tid := st.tid,
           loopCounter := fun k =>
             if k = context.pc then st.loopCounter context.pc + 1 else st.loopCounter k,
           lastRegs := (getDiffRegisters context st.lastRegs).2,
           lastInstructionLog := some (renderLine simd disasm mem moduleBase context) },
         match st.lastInstructionLog with
         | some l => [l ++ (getDiffRegisters context st.lastRegs).1]
         | none => [])) ∧
    (¬(st.loopCounter context.pc + 1 ≤ LOOP_THRESHOLD ∨
        (st.loopCounter context.pc + 1) % 100 = 0) →
      calloutStep simd disasm mem moduleBase context st =
        ({ st with
           loopCounter := fun k =>
             if k = context.pc then st.loopCounter context.pc + 1 else st.loopCounter k },
         [])) := by
  constructor
  · intro h
    unfold calloutStep
    dsimp only
    rw [if_neg (by simp only [LOOP_THRESHOLD] at h ⊢; omega)]
  · intro h
    unfold calloutStep
    dsimp only
    rw [if_pos (by simp only [LOOP_THRESHOLD] at h ⊢; omega)]

/-- C1 witness: the gate passes at count 1 and suppresses at count 11,
at fully concrete inputs. -/
theorem loop_gate_renders_iff_witness :
    (st0.loopCounter ctx0.pc + 1 ≤ LOOP_THRESHOLD ∨
        (st0.loopCounter ctx0.pc + 1) % 100 = 0) ∧
    calloutStep none disasm0 memNone 0 ctx0 st0 =
      ({ tid := st0.tid,
         loopCounter := fun k =>
           if k = ctx0.pc then st0.loopCounter ctx0.pc + 1 else st0.loopCounter k,
         lastRegs := (getDiffRegisters ctx0 st0.lastRegs).2,
         lastInstructionLog := some (renderLine none disasm0 memNone 0 ctx0) },
       match st0.lastInstructionLog with
       | some l => [l ++ (getDiffRegisters ctx0 st0.lastRegs).1]
       | none => []) ∧
    ¬(stHot.loopCounter ctx0.pc + 1 ≤ LOOP_THRESHOLD ∨
        (stHot.loopCounter ctx0.pc + 1) % 100 = 0) ∧
    calloutStep none disasm0 memNone 0 ctx0 stHot =
      ({ stHot with
         loopCounter := fun k =>
           if k = ctx0.pc then stHot.loopCounter ctx0.pc + 1 else stHot.loopCounter k },
       []) :=
  ⟨Or.inl (by decide),
   (loop_gate_renders_iff none disasm0 memNone 0 ctx0 st0).1 (Or.inl (by decide)),
   by decide,
   (loop_gate_renders_iff none disasm0 memNone 0 ctx0 stHot).2 (by decide)⟩

/-- C2: at each gate-passing callout the previous pending line (if any)
is the only thing printed, with the diff computed at this callout
appended; the current instruction's rendering becomes the new pending
line; on exit the remaining pending line is printed exactly as stored
(no trailing diff) before the banner. -/
theorem deferred_flush_spec (simd : Option SimdBuf) (disasm : Nat → Instr) (mem : Mem)
    (moduleBase : Nat) (context : RegContext) (st : TraceState)
    (hgate : st.loopCounter context.pc + 1 ≤ LOOP_THRESHOLD ∨
      (st.loopCounter context.pc + 1) % 100 = 0) :
    ((calloutStep simd disasm mem moduleBase context st).2 =
      match st.lastInstructionLog with
      | some l => [l ++ (getDiffRegisters context st.lastRegs).1]
      | none => []) ∧
    (calloutStep simd disasm mem moduleBase context st).1.lastInstructionLog =
      some (renderLine simd disasm mem moduleBase context) ∧
    (∀ st2 : TraceState, ∀ r l : String, st2.lastInstructionLog = some l →
      onLeaveLines st2 r = [l, exitBanner r]) := by
  have hc : ¬(st.loopCounter context.pc + 1 > LOOP_THRESHOLD ∧
      (st.loopCounter context.pc + 1) % 100 ≠ 0) := by
    simp only [LOOP_THRESHOLD] at hgate ⊢
    omega
  refine ⟨?_, ?_, fun st2 r l hl => ?_⟩
  · unfold calloutStep
    dsimp only
    rw [if_neg hc]
  · unfold calloutStep
    dsimp only
    rw [if_neg hc]
  · unfold onLeaveLines
    rw [hl]
    rfl

/-- C2 witness: the theorem applied at a concrete state with a pending
line, plus the exit flush at that state. -/
theorem deferred_flush_spec_witness :
    (calloutStep none disasm0 memNone 0 ctx0 stP).2 =
      ["PENDING" ++ (getDiffRegisters ctx0 stP.lastRegs).1] ∧
    (calloutStep none disasm0 memNone 0 ctx0 stP).1.lastInstructionLog =
      some (renderLine none disasm0 memNone 0 ctx0) ∧
    onLeaveLines stP "0x5" = ["PENDING", exitBanner "0x5"] := by
  have h := deferred_flush_spec none disasm0 memNone 0 ctx0 stP (Or.inl (by decide))
  exact ⟨h.1, h.2.1, h.2.2 stP "0x5" "PENDING" rfl⟩

/-- C10: a suppressed hit mutates only the hit counter at the current
pc: output is empty, the last-rendered map and pending line are
unchanged, other counters are unchanged, and the diff a later callout
computes from the post-state equals the one from the pre-state. -/
theorem suppressed_hit_frame (simd : Option SimdBuf) (disasm : Nat → Instr) (mem : Mem)
    (moduleBase : Nat) (context : RegContext) (st : TraceState)
    (hs : st.loopCounter context.pc + 1 > LOOP_THRESHOLD)
    (hm : (st.loopCounter context.pc + 1) % 100 ≠ 0) :
    calloutStep simd disasm mem moduleBase context st =
      ({ st with loopCounter := fun k =>
          if k = context.pc then st.loopCounter context.pc + 1 else st.loopCounter k },
       []) ∧
    (calloutStep simd disasm mem moduleBase context st).1.lastRegs = st.lastRegs ∧
    (calloutStep simd disasm mem moduleBase context st).1.lastInstructionLog =
      st.lastInstructionLog ∧
    (∀ k : Nat, k ≠ context.pc →
      (calloutStep simd disasm mem moduleBase context st).1.loopCounter k =
        st.loopCounter k) ∧
    (calloutStep simd disasm mem moduleBase context st).1.loopCounter context.pc =
      st.loopCounter context.pc + 1 ∧
    (∀ ctx2 : RegContext,
      getDiffRegisters ctx2 (calloutStep simd disasm mem moduleBase context st).1.lastRegs =
        getDiffRegisters ctx2 st.lastRegs) := by
  have heq : calloutStep simd disasm mem moduleBase context st =
      ({ st with loopCounter := fun k =>
          if k = context.pc then st.loopCounter context.pc + 1 else st.loopCounter k },
       []) := by
    unfold calloutStep
    dsimp only
    rw [if_pos ⟨hs, hm⟩]
  refine ⟨heq, by rw [heq], by rw [heq], fun k hk => ?_, ?_, fun ctx2 => by rw [heq]⟩
  · rw [heq]
    exact if_neg hk
  · rw [heq]
    exact if_pos rfl

/-- C10 witness: the theorem applied at the concrete suppressed state
(count 11). -/
theorem suppressed_hit_frame_witness :
    (calloutStep none disasm0 memNone 0 ctx0 stHot).1.lastRegs = stHot.lastRegs ∧
    (calloutStep none disasm0 memNone 0 ctx0 stHot).1.lastInstructionLog =
      stHot.lastInstructionLog ∧
    (calloutStep none disasm0 memNone 0 ctx0 stHot).1.loopCounter ctx0.pc =
      stHot.loopCounter ctx0.pc + 1 :=
  ⟨(suppressed_hit_frame none disasm0 memNone 0 ctx0 stHot (by decide) (by decide)).2.1,
   (suppressed_hit_frame none disasm0 memNone 0 ctx0 stHot (by decide) (by decide)).2.2.1,
   (suppressed_hit_frame none disasm0 memNone 0 ctx0 stHot
     (by decide) (by decide)).2.2.2.2.1⟩

/-- C6 (amended): for a memory operand, when the base register does not
resolve to a machine-word value the effective address is shown as the
unavailable marker N/A with the symbolic base+displacement form; when
the base resolves, the computed effective address is always shown —
even when the word load fails, in which case there is no value
annotation; when the load succeeds the loaded value and its
memory-inspection annotation are appended. -/
theorem mem_operand_spec (simd : Option SimdBuf) (mem : Mem) (context : RegContext)
    (b : String) (disp : Int) :
    (b ≠ "" → (∀ v, getRegisterValue simd context b ≠ .ptrV v) →
      formatOperand simd mem context (.mem (some b) disp) =
        "[" ++ b ++ "+" ++ toString disp ++ "]=" ++ "N/A") ∧
    (∀ bv, getRegisterValue simd context b = .ptrV bv →
      (readWord mem (addDisp bv disp) = none →
        formatOperand simd mem context (.mem (some b) disp) =
          "[" ++ b ++ "+" ++ toString disp ++ "]=" ++ ptrStr (addDisp bv disp)) ∧
      (∀ lv, readWord mem (addDisp bv disp) = some lv →
        formatOperand simd mem context (.mem (some b) disp) =
          "[" ++ b ++ "+" ++ toString disp ++ "]=" ++ ptrStr (addDisp bv disp) ++
            (" " ++ cBLUE ++ "[val=" ++ ptrStr lv ++ "]" ++ cRESET ++
              inspectMemory mem lv))) ∧
    (formatOperand simd mem context (.mem none disp) =
      "[" ++ "undefined" ++ "+" ++ toString disp ++ "]=" ++ "N/A") := by
  refine ⟨fun hb hnp => ?_, fun bv hbv => ⟨fun hw => ?_, fun lv hlv => ?_⟩, ?_⟩
  · unfold formatOperand
    dsimp only
    rw [if_neg hb]
    cases hg : getRegisterValue simd context b with
    | ptrV v => exact absurd hg (hnp v)
    | undefV => exact String.append_empty _
    | strV s => exact String.append_empty _
  · unfold formatOperand
    dsimp only
    rw [if_neg (fun he => by rw [he] at hbv; exact JsVal.noConfusion hbv)]
    rw [hbv]
    dsimp only
    rw [hw]
    exact String.append_empty _
  · unfold formatOperand
    dsimp only
    rw [if_neg (fun he => by rw [he] at hbv; exact JsVal.noConfusion hbv)]
    rw [hbv]
    dsimp only
    rw [hlv]
  · unfold formatOperand
    dsimp only
    exact String.append_empty _

/-- C6 counterexample: at a concrete memory operand whose base register
x0 resolves to 0x10000 but where the one-word load from the effective
address faults, the formatter prints the computed effective address
0x10000 — not an unavailable marker. -/
theorem mem_operand_load_fail_shows_address :
    readWord memNone (addDisp 0x10000 0) = none ∧
    formatOperand none memNone ctxP (Operand.mem (some "x0") 0) = "[x0+0]=0x10000" ∧
    ("[x0+0]=0x10000" : String) ≠ "[x0+0]=N/A" := by
  refine ⟨by decide, by decide, by decide⟩

/-- C6 witness: the amended theorem applied at concrete inputs covering
the unresolvable-base, load-fail, and absent-base branches. -/
theorem mem_operand_spec_witness :
    formatOperand none memNone ctxP (Operand.mem (some "b1") 0) =
      "[" ++ "b1" ++ "+" ++ toString (0 : Int) ++ "]=" ++ "N/A" ∧
    formatOperand none memNone ctxP (Operand.mem (some "x0") 0) =
      "[" ++ "x0" ++ "+" ++ toString (0 : Int) ++ "]=" ++ ptrStr (addDisp 0x10000 0) ∧
    formatOperand none memNone ctxP (Operand.mem none 0) =
      "[" ++ "undefined" ++ "+" ++ toString (0 : Int) ++ "]=" ++ "N/A" :=
  ⟨(mem_operand_spec none memNone ctxP "b1" 0).1 (by decide)
      (fun v h => by rw [show getRegisterValue none ctxP "b1" = .strV "(No-CModule)" from rfl] at h; cases h),
   ((mem_operand_spec none memNone ctxP "x0" 0).2.1 0x10000 (by decide)).1 (by decide),
   (mem_operand_spec none memNone ctxP "x0" 0).2.2⟩

/-- C8 (amended): memory inspection never faults; it is empty when the
value fails the pointer-safety check; it is the quoted string of
exactly the scanned bytes when the 32-byte peek succeeds and the
printable run exceeds 2; otherwise — including when the byte peek
itself faults — it is the points-to annotation when the word read
succeeds and the word passes the safety check, and empty when the word
read fails or the word is unsafe. -/
theorem inspectMemory_spec (mem : Mem) (v : Nat) :
    (isSafePointer (some v) = false → inspectMemory mem v = "") ∧
    (∀ u8, isSafePointer (some v) = true →
      readBytesN mem v STR_PEEK_LEN = some u8 →
      (scanPrintable u8).1 = true → (scanPrintable u8).2 > 2 →
      inspectMemory mem v = quoteAnn (readAsciiString u8 (scanPrintable u8).2)) ∧
    (∀ p, isSafePointer (some v) = true →
      (readBytesN mem v STR_PEEK_LEN = none ∨
        ∃ u8, readBytesN mem v STR_PEEK_LEN = some u8 ∧
          ¬((scanPrintable u8).1 = true ∧ (scanPrintable u8).2 > 2)) →
      readWord mem v = some p → isSafePointer (some p) = true →
      inspectMemory mem v = pointsToAnn p) ∧
    (isSafePointer (some v) = true →
      (readBytesN mem v STR_PEEK_LEN = none ∨
        ∃ u8, readBytesN mem v STR_PEEK_LEN = some u8 ∧
          ¬((scanPrintable u8).1 = true ∧ (scanPrintable u8).2 > 2)) →
      (readWord mem v = none ∨
        ∃ p, readWord mem v = some p ∧ isSafePointer (some p) = false) →
      inspectMemory mem v = "") := by
  refine ⟨fun hs => ?_, fun u8 hs hby h1 h2 => ?_, fun p hs hstr hw hps => ?_,
    fun hs hstr hw => ?_⟩
  · unfold inspectMemory
    rw [hs]
    rfl
  · unfold inspectMemory
    rw [hs]
    rw [if_neg (show ¬((!true) = true) by decide)]
    dsimp only
    rw [hby]
    dsimp only
    rw [if_pos ⟨h1, h2⟩]
  · unfold inspectMemory
    rw [hs]
    rw [if_neg (show ¬((!true) = true) by decide)]
    dsimp only
    rcases hstr with hby | ⟨u8, hby, hns⟩
    · rw [hby]
      dsimp only
      rw [hw]
      dsimp only
      rw [if_pos hps]
    · rw [hby]
      dsimp only
      rw [if_neg hns]
      rw [hw]
      dsimp only
      rw [if_pos hps]
  · unfold inspectMemory
    rw [hs]
    rw [if_neg (show ¬((!true) = true) by decide)]
    dsimp only
    rcases hstr with hby | ⟨u8, hby, hns⟩
    · rw [hby]
      dsimp only
      rcases hw with hw | ⟨p, hw, hps⟩
      · rw [hw]
      · rw [hw]
        dsimp only
        rw [if_neg (by rw [hps]; exact Bool.false_ne_true)]
    · rw [hby]
      dsimp only
      rw [if_neg hns]
      rcases hw with hw | ⟨p, hw, hps⟩
      · rw [hw]
      · rw [hw]
        dsimp only
        rw [if_neg (by rw [hps]; exact Bool.false_ne_true)]

/-- Memory for the C8 counterexample: exactly the eight bytes at
0x10000..0x10007 are readable and hold the little-endian word 0x20000;
the 32-byte peek therefore faults while the word read succeeds. -/
def memCE : Mem := fun a =>
  if a < 0x10000 ∨ 0x10008 ≤ a then none
  else if a = 0x10002 then some ⟨2, by norm_num⟩
  else some ⟨0, by norm_num⟩

/-- C8 counterexample: at address 0x10000 of `memCE` the 32-byte peek
faults, yet the inspection annotation is a points-to annotation, not
the empty annotation the claim requires after any read failure. -/
theorem inspectMemory_bytes_fail_points_to :
    readBytesN memCE 0x10000 STR_PEEK_LEN = none ∧
    inspectMemory memCE 0x10000 = pointsToAnn 0x20000 ∧
    pointsToAnn 0x20000 ≠ "" := by
  refine ⟨by decide, by decide, by decide⟩

/-- Memory holding the printable bytes "OKA" then a zero terminator,
all 32 peeked bytes readable. -/
def memStr : Mem := fun a =>
  if a < 0x10000 ∨ 0x10020 ≤ a then none
  else if a = 0x10000 then some ⟨79, by norm_num⟩
  else if a = 0x10001 then some ⟨75, by norm_num⟩
  else if a = 0x10002 then some ⟨65, by norm_num⟩
  else some ⟨0, by norm_num⟩

/-- The byte list `readByteArray` yields on `memStr` at 0x10000. -/
def u8Str : List (Fin 256) :=
  [⟨79, by norm_num⟩, ⟨75, by norm_num⟩, ⟨65, by norm_num⟩] ++
    List.replicate 29 ⟨0, by norm_num⟩

/-- C8 witness: the amended theorem applied at concrete inputs for all
four clauses: unsafe value, printable run, byte-peek-faulting word
read, and nothing readable. -/
theorem inspectMemory_spec_witness :
    inspectMemory memNone 3 = "" ∧
    inspectMemory memStr 0x10000 = quoteAnn (readAsciiString u8Str (scanPrintable u8Str).2) ∧
    inspectMemory memCE 0x10000 = pointsToAnn 0x20000 ∧
    inspectMemory memNone 0x10000 = "" :=
  ⟨(inspectMemory_spec memNone 3).1 (by decide),
   (inspectMemory_spec memStr 0x10000).2.1 u8Str (by decide) (by decide) (by decide) (by decide),
   (inspectMemory_spec memCE 0x10000).2.2.1 0x20000 (by decide) (Or.inl (by decide))
     (by decide) (by decide),
   (inspectMemory_spec memNone 0x10000).2.2.2 (by decide) (Or.inl (by decide))
     (Or.inl (by decide))⟩

/-- A module oracle placing every address in the target module. -/
def moCE : Nat → Option ModuleInfo := fun _ => some { name := "libt.so", base := 0 }

/-- A module oracle resolving no address. -/
def moNone : Nat → Option ModuleInfo := fun _ => none

/-- C9 (amended): every instruction offered is retained regardless of
the module match; at an in-target-module instruction the inserted
callouts are the capture callout followed by the pipeline callout when
the CModule bridge initialized, and only the pipeline callout when it
did not; instructions outside the target module get no callouts. -/
theorem transform_policy_spec (cmOk : Bool) (tgt : String)
    (mo : Nat → Option ModuleInfo) :
    (∀ instrs : List Nat, ∀ a ∈ instrs,
      StalkAction.keep a ∈ transform cmOk tgt mo instrs) ∧
    (∀ a m, mo a = some m → m.name = tgt → cmOk = true →
      transformInstr cmOk tgt mo a =
        [.captureCallout a, .pipelineCallout a, .keep a]) ∧
    (∀ a m, mo a = some m → m.name = tgt → cmOk = false →
      transformInstr cmOk tgt mo a = [.pipelineCallout a, .keep a]) ∧
    (∀ a, (mo a = none ∨ ∃ m, mo a = some m ∧ m.name ≠ tgt) →
      transformInstr cmOk tgt mo a = [.keep a]) := by
  have hk : ∀ a, StalkAction.keep a ∈ transformInstr cmOk tgt mo a := by
    intro a
    unfold transformInstr
    exact List.mem_append_right _ (by simp)
  refine ⟨fun instrs a ha => ?_, fun a m hm hname hcm => ?_,
    fun a m hm hname hcm => ?_, fun a hout => ?_⟩
  · unfold transform
    rw [List.mem_flatMap]
    exact ⟨a, ha, hk a⟩
  · subst hcm
    unfold transformInstr
    rw [hm]
    dsimp only
    rw [if_pos hname]
    rfl
  · subst hcm
    unfold transformInstr
    rw [hm]
    dsimp only
    rw [if_pos hname]
    rfl
  · unfold transformInstr
    rcases hout with hm | ⟨m, hm, hname⟩
    · rw [hm]
      rfl
    · rw [hm]
      dsimp only
      rw [if_neg hname]
      rfl

/-- C9 counterexample: with the CModule bridge failed, an instruction
inside the target module gets only the pipeline callout — no capture
callout is inserted before it, contrary to the unconditional claim. -/
theorem transform_no_capture_without_cmodule :
    moCE 0x40 = some { name := "libt.so", base := 0 } ∧
    transformInstr false "libt.so" moCE 0x40 =
      [.pipelineCallout 0x40, .keep 0x40] ∧
    StalkAction.captureCallout 0x40 ∉ transformInstr false "libt.so" moCE 0x40 := by
  refine ⟨rfl, by decide, by decide⟩

/-- C9 witness: the amended theorem applied at concrete inputs for the
retention, bridge-up, bridge-down and out-of-module clauses. -/
theorem transform_policy_spec_witness :
    StalkAction.keep 5 ∈ transform true "libt.so" moCE [5] ∧
    transformInstr true "libt.so" moCE 5 =
      [.captureCallout 5, .pipelineCallout 5, .keep 5] ∧
    transformInstr false "libt.so" moCE 5 = [.pipelineCallout 5, .keep 5] ∧
    transformInstr true "libt.so" moNone 7 = [.keep 7] :=
  ⟨(transform_policy_spec true "libt.so" moCE).1 [5] 5 (by simp),
   (transform_policy_spec true "libt.so" moCE).2.1 5 { name := "libt.so", base := 0 }
     rfl rfl rfl,
   (transform_policy_spec false "libt.so" moCE).2.2.1 5 { name := "libt.so", base := 0 }
     rfl rfl rfl,
   (transform_policy_spec true "libt.so" moNone).2.2.2 7 (Or.inl rfl)⟩

/-- C7 witness: the accepting clause applied at 0x10000, and the
rejecting clauses at 0xffff and 0x10001. -/
theorem isSafePointer_spec_witness :
    isSafePointer (some 0x10000) = true ∧
    isSafePointer (some 0xffff) = false ∧
    isSafePointer (some 0x10001) = false :=
  ⟨isSafePointer_spec.2.2.2.2 0x10000 (by norm_num) (by norm_num) (by norm_num),
   isSafePointer_spec.2.2.1 0xffff (by norm_num),
   isSafePointer_spec.2.2.2.1 0x10001 (by norm_num)⟩

end StalkTrace
